import Mathlib

/-!
Shallow embedding of `src/packages/node-fetch/src/fetch.ts` (the `fetchPonyfill`
dispatcher of GauBen/whatwg-node) and proofs about it.

Conventions of the embedding:
* URLs and data-URI payloads are processed as `List Char` (JS strings are
  sequences of code units; the claims only exercise the BMP/ASCII range where a
  `Char` per code unit is exact).
* Bytes are `Nat` values, with `< 256` hypotheses where the source deals in bytes.
* The asynchronous dispatch is modelled as a pure function taking the transport
  engine's eventual answer (`CurlyResult`) as an explicit argument; effects the
  claims talk about (was the engine invoked? was an `onabort` callback
  registered? which options snapshot was passed?) are recorded in the returned
  `DispatchOutput` record.
* Fallible JS operations (`decodeURIComponent` throwing `URIError`, the
  `throw new Error('redirects are not allowed')` during header assembly) are
  modelled with `Option`/`Except`.
-/

/-! ## JS string helpers -/

/-- Model of `String.prototype.split` with a single-character separator, over
`List Char`.  Like JS, splitting the empty string yields `[[]]` (one empty
piece), and the result is never the empty list. -/
def splitOnChar (sep : Char) : List Char → List (List Char)
  | [] => [[]]
  | c :: rest =>
    let r := splitOnChar sep rest
    if c = sep then [] :: r else (c :: r.headD []) :: r.tail

/-- Model of `Array.prototype.join` with a single-character separator. -/
def joinChar (sep : Char) : List (List Char) → List Char
  | [] => []
  | [x] => x
  | x :: y :: t => x ++ sep :: joinChar sep (y :: t)

/-- Value of a hexadecimal digit character (via its code point: 0x30–0x39,
0x41–0x46, 0x61–0x66), `none` if not a hex digit. -/
def hexDigitVal (c : Char) : Option Nat :=
  let n := c.toNat
  if 48 ≤ n ∧ n ≤ 57 then some (n - 48)
  else if 65 ≤ n ∧ n ≤ 70 then some (n - 55)
  else if 97 ≤ n ∧ n ≤ 102 then some (n - 87)
  else none

/-- Model of the JS builtin `decodeURIComponent`, restricted to single-byte
escapes: `%XY` decodes to the code point `0xXY`, any other character is kept
as-is, and a malformed escape yields `none` (where the builtin throws
`URIError`).  The builtin additionally reassembles multi-byte UTF-8 escape
sequences (`%C3%A9` → one character); the claims only exercise payloads in the
single-byte range, where this model is exact. -/
def percentDecode : List Char → Option (List Char)
  | [] => some []
  | c :: rest =>
    if c = '%' then
      match rest with
      | h1 :: h2 :: rest' =>
        match hexDigitVal h1, hexDigitVal h2 with
        | some v1, some v2 => (percentDecode rest').map (Char.ofNat (16 * v1 + v2) :: ·)
        | _, _ => none
      | _ => none
    else (percentDecode rest).map (c :: ·)

/-! ## URL-safe base64 (model of `Buffer.from(data, 'base64url')` and of the
matching encoder `buf.toString('base64url')`) -/

/-- The URL-safe base64 alphabet. -/
def base64Alphabet : List Char :=
  "ABCDEFGHIJKLMNOPQRSTUVWXYZabcdefghijklmnopqrstuvwxyz0123456789-_".data

/-- Character for a sextet value (total, defaulting to 'A' out of range; only
applied to values `< 64`). -/
def charOfSextet (s : Nat) : Char := base64Alphabet.getD s 'A'

/-- Sextet value of a base64url character, `none` for characters outside the
alphabet. -/
def sextetOfChar (c : Char) : Option Nat :=
  let i := base64Alphabet.indexOf c
  if i < 64 then some i else none

/-- Regroup a sextet stream into bytes: 4 sextets give 3 bytes, a trailing
group of 3 gives 2 bytes, of 2 gives 1 byte, and a lone trailing sextet is
dropped, matching Node's unpadded base64url decoding. -/
def sextetsToBytes : List Nat → List Nat
  | s0 :: s1 :: s2 :: s3 :: rest =>
    (s0 * 4 + s1 / 16) :: ((s1 % 16) * 16 + s2 / 4) :: ((s2 % 4) * 64 + s3) ::
      sextetsToBytes rest
  | [s0, s1, s2] => [s0 * 4 + s1 / 16, (s1 % 16) * 16 + s2 / 4]
  | [s0, s1] => [s0 * 4 + s1 / 16]
  | _ => []

/-- Split a byte stream into sextets (the encoding direction, unpadded). -/
def bytesToSextets : List Nat → List Nat
  | b0 :: b1 :: b2 :: rest =>
    (b0 / 4) :: ((b0 % 4) * 16 + b1 / 16) :: ((b1 % 16) * 4 + b2 / 64) :: (b2 % 64) ::
      bytesToSextets rest
  | [b0, b1] => [b0 / 4, (b0 % 4) * 16 + b1 / 16, (b1 % 16) * 4]
  | [b0] => [b0 / 4, (b0 % 4) * 16]
  | [] => []

/-- Model of `Buffer.from(data, 'base64url')`: characters outside the alphabet
are skipped (Node's decoder is forgiving; the claims only exercise clean
inputs, where this is exact). -/
def base64urlDecode (cs : List Char) : List Nat :=
  sextetsToBytes (cs.filterMap sextetOfChar)

/-- Model of `buf.toString('base64url')`: unpadded URL-safe base64. -/
def base64urlEncode (bytes : List Nat) : List Char :=
  (bytesToSextets bytes).map charOfSextet

/-! ## Data model -/

/-- The `redirect` mode of a Request (`RequestRedirect` in the fetch API). -/
inductive Redirect where
  | follow
  | error
  | manual
deriving DecidableEq, Repr

/-- Cancellation signal: the dispatcher reads only its `aborted` flag (the
`onabort` registration is recorded in `DispatchOutput`). -/
structure PSignal where
  aborted : Bool
deriving DecidableEq, Repr

/-- The Request shape consumed by the dispatcher (`PonyfillRequest`, which is
not under `src/`; modelled from the spec's data model: url, method, ordered
header mapping, optional body stream, redirect mode, signal, and the optional
per-request `headersSerializer`).  The body is an opaque stream identifier:
the dispatcher only tests its presence and passes it through. -/
structure PRequest where
  url : String
  method : String
  headers : List (String × String)
  body : Option Nat
  redirect : Redirect
  signal : PSignal
  headersSerializer : Option (List (String × String) → List String × Option String)

/-- Response body, by provenance. -/
inductive PBody where
  | text (cs : List Char)
  | blob (bytes : List Nat) (mimeType : List Char)
  | fileStream (path : String)
  | curlStream (id : Nat)
deriving DecidableEq, Repr

/-- The Response shape produced by the dispatcher (`PonyfillResponse` is not
under `src/`; modelled from the spec's data model, with the standard fetch
defaults status 200 / statusText "" / empty headers / empty url when the
constructor is given no explicit init). -/
structure PResponse where
  status : Nat
  statusText : String
  headers : List (String × String)
  url : String
  body : PBody
deriving DecidableEq, Repr

/-- What the transport engine's `curly(url, options)` call eventually yields:
a status code, the header blocks (one ordered key/value block per response on
the wire, including intermediate redirect hops), and the live body stream
(opaque identifier). -/
structure CurlyResult where
  statusCode : Nat
  headers : List (List (String × String))
  data : Nat
deriving DecidableEq, Repr

/-- Partial model of the JS `Number` coercion as used on header values:
nonnegative decimal integer strings map to their value, everything else to
`nan`.  (The real coercion maps some further strings to non-integer numbers;
those are never produced by the claims.) -/
inductive JSNum where
  | nan
  | num (n : Nat)
deriving DecidableEq, Repr

/-- Numeric value of a nonempty decimal digit string (code point of '0' is
0x30). -/
def digitsToNat (cs : List Char) : Nat :=
  cs.foldl (fun acc c => 10 * acc + (c.toNat - 48)) 0

/-- JS `Number(s)` on the strings the claims exercise. -/
def jsNumber (s : String) : JSNum :=
  if s.data ≠ [] ∧ s.data.all Char.isDigit then JSNum.num (digitsToNat s.data)
  else JSNum.nan

/-- The options snapshot handed to the transport engine (`CurlyOptions`). -/
structure CurlyOptions where
  curlyStreamResponse : Bool
  curlyResponseBodyParser : Bool
  upload : Bool
  transferEncoding : Bool
  httpTransferDecoding : Bool
  followLocation : Bool
  maxRedirs : Nat
  acceptEncoding : String
  curlyStreamUpload : Option Nat
  httpHeader : List String
  customRequest : String
  inFileSize : Option JSNum
deriving DecidableEq, Repr

/-- Outcome of one dispatch: a Response, or a rejection with an error message. -/
inductive DispatchOutcome where
  | response (r : PResponse)
  | failure (msg : String)
deriving DecidableEq, Repr

/-- Full observable effect of one dispatch call: its outcome plus the effects
the claims talk about (whether the transport engine was invoked, whether an
`onabort` callback was registered on the signal, and which options snapshot
was passed to the engine, if any). -/
structure DispatchOutput where
  outcome : DispatchOutcome
  engineInvoked : Bool
  onabortRegistered : Bool
  curlyOptions : Option CurlyOptions

/-! ## URL accessors (the dispatcher reads `protocol` and, for data URIs,
`pathname` of a `PonyfillURL`; that class is not under `src/`) -/

/-- Modelled from the spec: `PonyfillURL` is not under `src/`.  `protocol` is
the lowercased scheme up to the first colon, colon included; scheme-less
inputs resolve against the base `http://localhost` used by the dispatcher. -/
def urlProtocol (u : String) : List Char :=
  if u.data.contains ':' then
    (u.data.takeWhile (· ≠ ':')).map Char.toLower ++ [':']
  else "http:".data

/-- Modelled from the spec: for a non-special scheme such as `data:`, the
pathname is everything after the first colon (the claims' well-formed data
URIs contain no query or fragment). -/
def urlPathname (u : String) : List Char :=
  (u.data.dropWhile (· ≠ ':')).drop 1

/-! ## The three transport handlers -/

/-- `BASE64_SUFFIX` from the source. -/
def BASE64_SUFFIX : List Char := ";base64".data

/-- Embedding of `getResponseForDataUri` (fetch.ts lines 20–39), on the URL's
pathname.  `none` models the `URIError` thrown by `decodeURIComponent` on a
malformed escape.  The `headD "text/plain"` mirrors the source's destructuring
default `[mimeType = 'text/plain', ...datas]`, which (like here) can never
fire because `split` never yields an empty array. -/
def getResponseForDataUri (pathname : List Char) : Option PResponse :=
  let parts := splitOnChar ',' pathname
  let mimeType := parts.headD "text/plain".data
  let datas := parts.tail
  match percentDecode (joinChar ',' datas) with
  | none => none
  | some data =>
    if BASE64_SUFFIX.isSuffixOf mimeType then
      let buffer := base64urlDecode data
      let realMimeType := mimeType.take (mimeType.length - BASE64_SUFFIX.length)
      some { status := 200, statusText := "OK", headers := [], url := "",
             body := PBody.blob buffer realMimeType }
    else
      some { status := 200, statusText := "OK",
             headers := [("content-type", String.mk mimeType)], url := "",
             body := PBody.text data }

/-- Modelled from the spec: `fileURLToPath` (a Node builtin) converts a
`file:` URL to a local path; the dispatcher only ever passes the result to
`createReadStream`, so any injective-on-the-claims model suffices — we strip
the `file://` prefix. -/
def fileURLToPath (u : String) : String := String.mk (u.data.drop 7)

/-- Embedding of `getResponseForFile` (fetch.ts lines 14–18): a Response over
the lazily-read file stream, with constructor defaults (no explicit status or
headers; no up-front existence check). -/
def getResponseForFile (u : String) : PResponse :=
  { status := 200, statusText := "", headers := [], url := "",
    body := PBody.fileStream (fileURLToPath u) }

/-! ## Network path -/

/-- Modelled from the spec: `defaultHeadersSerializer` lives in `utils.ts`,
which is not under `src/`.  Per spec §4.4 step 2 it turns each header entry
into a `"key: value"` line and reports the value of the (case-sensitively
lowercase) `content-length` entry through the callback; the source's callback
overwrites its `size` variable on each report, so the last reported value
wins — hence `getLast?`. -/
def defaultHeadersSerializer (headers : List (String × String)) :
    List String × Option String :=
  (headers.map (fun kv => kv.1 ++ ": " ++ kv.2),
   ((headers.filter (fun kv => kv.1 = "content-length")).map Prod.snd).getLast?)

/-- Embedding of the `curlyOptions` snapshot assembly (fetch.ts lines 84–110),
including the trailing `if (size != null) curlyOptions.inFileSize = size`. -/
def buildCurlyOptions (req : PRequest)
    (serializer : List (String × String) → List String × Option String) :
    CurlyOptions :=
  let ser := serializer req.headers
  { curlyStreamResponse := true
    curlyResponseBodyParser := false
    upload := req.body.isSome
    transferEncoding := false
    httpTransferDecoding := true
    followLocation := req.redirect = Redirect.follow
    maxRedirs := 20
    acceptEncoding := ""
    curlyStreamUpload := req.body
    httpHeader := ser.1
    customRequest := req.method
    inFileSize := ser.2.map jsNumber }

/-- Embedding of the header-assembly loop body (fetch.ts lines 123–132): walk
one header block, throwing `'redirects are not allowed'` exactly when the
source's condition `key === 'location' || (key === 'Location' &&
fetchRequest.redirect === 'error')` holds, skipping the synthetic `result`
key, and appending every other key/value (PonyfillHeaders.append is modelled
as list append: casing preserved, duplicates allowed, per spec §4.4 step 6). -/
def appendHeaderBlock (redirect : Redirect) (acc : List (String × String)) :
    List (String × String) → Except String (List (String × String))
  | [] => Except.ok acc
  | (k, v) :: rest =>
    if k = "location" ∨ (k = "Location" ∧ redirect = Redirect.error) then
      Except.error "redirects are not allowed"
    else if k ≠ "result" then
      appendHeaderBlock redirect (acc ++ [(k, v)]) rest
    else
      appendHeaderBlock redirect acc rest

/-- Embedding of `curlyResult.headers.forEach(...)` (fetch.ts lines 122–132):
fold the loop body over all header blocks, starting from the empty mapping;
a throw aborts the whole assembly. -/
def assembleResponseHeaders (redirect : Redirect)
    (blocks : List (List (String × String))) :
    Except String (List (String × String)) :=
  blocks.foldlM (appendHeaderBlock redirect) []

/-- Embedding of the post-`await curly(...)` tail of the network path
(fetch.ts lines 122–145): assemble the headers, then construct the Response
with the engine's status code, the assembled mapping, the original request
URL, and the engine's live stream. -/
def processCurlyResult (req : PRequest) (res : CurlyResult) :
    Except String PResponse :=
  match assembleResponseHeaders req.redirect res.headers with
  | Except.error e => Except.error e
  | Except.ok hdrs =>
    Except.ok { status := res.statusCode, statusText := "", headers := hdrs,
                url := req.url, body := PBody.curlStream res.data }

/-- A stream error as observed by the `'error'` handler installed on
`curlyResult.data` (fetch.ts lines 133–139). -/
structure StreamError where
  isCurlError : Bool
  code : Nat
deriving DecidableEq, Repr

/-- libcurl's `CURLE_ABORTED_BY_CALLBACK` error code (external constant from
`node-libcurl`; the exact value is immaterial to the claims). -/
def CURLE_ABORTED_BY_CALLBACK : Nat := 42

/-- Embedding of the body-stream error handler (fetch.ts lines 133–139):
`none` means the error is suppressed ("this is expected"), `some e` means it
is re-raised unchanged. -/
def bodyErrorHandler (err : StreamError) : Option StreamError :=
  if err.isCurlError = true ∧ err.code = CURLE_ABORTED_BY_CALLBACK then none
  else some err

/-! ## Progress callback (fetch.ts lines 88–93) -/

/-- One invocation of the engine's progress callback: the `this` handle bound
by the engine at that tick, the value of `signal.aborted` at that tick, and
whether the one-shot `onabort` callback has already fired (carried to state
that the return value does not depend on it). -/
structure ProgressTick where
  handle : Nat
  aborted : Bool
  onabortFired : Bool
deriving DecidableEq, Repr

/-- Embedding of `curlyProgressCallback` (fetch.ts lines 88–93): assign the
`easyNativeBinding` slot only if it is still empty, and return 1 (abort) when
the signal is aborted at this tick, 0 (continue) otherwise. -/
def curlyProgressCallback (slot : Option Nat) (t : ProgressTick) :
    Option Nat × Nat :=
  ((if slot.isNone then some t.handle else slot),
   (if t.aborted then 1 else 0))

/-- Run a sequence of progress-callback invocations from a slot state,
collecting the returned instructions. -/
def runProgress (slot : Option Nat) : List ProgressTick → Option Nat × List Nat
  | [] => (slot, [])
  | t :: ts =>
    let step := curlyProgressCallback slot t
    let rest := runProgress step.1 ts
    (rest.1, step.2 :: rest.2)

/-! ## The dispatcher -/

/-- Embedding of `fetchPonyfill` after input normalization (fetch.ts lines
52–146), with the transport engine's eventual answer passed explicitly (it is
consulted only on the network path).  Records the effects the claims are
about alongside the outcome. -/
def fetchPonyfill (req : PRequest) (engineResult : CurlyResult) : DispatchOutput :=
  let protocol := urlProtocol req.url
  if protocol = "data:".data then
    { outcome :=
        match getResponseForDataUri (urlPathname req.url) with
        | some r => DispatchOutcome.response r
        | none => DispatchOutcome.failure "URIError: URI malformed"
      engineInvoked := false
      onabortRegistered := false
      curlyOptions := none }
  else if protocol = "file:".data then
    { outcome := DispatchOutcome.response (getResponseForFile req.url)
      engineInvoked := false
      onabortRegistered := false
      curlyOptions := none }
  else
    let serializer := req.headersSerializer.getD defaultHeadersSerializer
    let opts := buildCurlyOptions req serializer
    { outcome :=
        match processCurlyResult req engineResult with
        | Except.ok r => DispatchOutcome.response r
        | Except.error e => DispatchOutcome.failure e
      engineInvoked := true
      onabortRegistered := true
      curlyOptions := some opts }

/-! ## Helper lemmas: split / join / percent-decoding -/

/-- One unfolding step of `splitOnChar` on a cons. -/
lemma splitOnChar_cons (sep c : Char) (rest : List Char) :
    splitOnChar sep (c :: rest) =
      if c = sep then [] :: splitOnChar sep rest
      else (c :: (splitOnChar sep rest).headD []) :: (splitOnChar sep rest).tail := rfl

/-- `splitOnChar` never returns the empty list (like JS `split`). -/
lemma splitOnChar_ne_nil (sep : Char) (l : List Char) : splitOnChar sep l ≠ [] := by
  cases l with
  | nil => simp [splitOnChar]
  | cons c rest =>
    rw [splitOnChar_cons]
    split <;> simp

/-- Joining the pieces of a split reconstructs the original list. -/
lemma joinChar_splitOnChar (sep : Char) (l : List Char) :
    joinChar sep (splitOnChar sep l) = l := by
  induction l with
  | nil => rfl
  | cons c rest ih =>
    rw [splitOnChar_cons]
    obtain ⟨hd, tl, h⟩ : ∃ hd tl, splitOnChar sep rest = hd :: tl := by
      cases hh : splitOnChar sep rest with
      | nil => exact absurd hh (splitOnChar_ne_nil sep rest)
      | cons a b => exact ⟨a, b, rfl⟩
    rw [h] at ih ⊢
    by_cases hc : c = sep
    · rw [if_pos hc]
      show [] ++ sep :: joinChar sep (hd :: tl) = c :: rest
      rw [ih, hc]
      rfl
    · rw [if_neg hc]
      simp only [List.headD_cons, List.tail_cons]
      cases tl with
      | nil =>
        show c :: hd = c :: rest
        rw [show hd = rest from ih]
      | cons t1 ts =>
        show (c :: hd) ++ sep :: joinChar sep (t1 :: ts) = c :: rest
        rw [List.cons_append]
        rw [show hd ++ sep :: joinChar sep (t1 :: ts) = rest from ih]

/-- Splitting `mt ++ sep :: p` where `mt` is separator-free peels off `mt` as
the first piece. -/
lemma splitOnChar_append (sep : Char) (mt p : List Char) (hmt : sep ∉ mt) :
    splitOnChar sep (mt ++ sep :: p) = mt :: splitOnChar sep p := by
  induction mt with
  | nil =>
    show splitOnChar sep (sep :: p) = [] :: splitOnChar sep p
    rw [splitOnChar_cons, if_pos rfl]
  | cons c cs ih =>
    have hc : c ≠ sep := fun e => hmt (e ▸ List.mem_cons_self c cs)
    have hmt' : sep ∉ cs := fun m => hmt (List.mem_cons_of_mem c m)
    rw [List.cons_append, splitOnChar_cons, ih hmt', if_neg hc]
    simp only [List.headD_cons, List.tail_cons]

/-- Percent-decoding is the identity on `%`-free input. -/
lemma percentDecode_no_percent (l : List Char) (h : '%' ∉ l) :
    percentDecode l = some l := by
  induction l with
  | nil => rfl
  | cons c rest ih =>
    have hc : c ≠ '%' := fun e => h (e ▸ List.mem_cons_self c rest)
    have h' : '%' ∉ rest := fun m => h (List.mem_cons_of_mem c m)
    unfold percentDecode
    rw [if_neg hc, ih h']
    rfl

/-! ## Helper lemmas: base64url round trip -/

/-- Decoding a base64url character produced by the encoder recovers the
sextet. -/
lemma sextetOfChar_charOfSextet : ∀ s, s < 64 → sextetOfChar (charOfSextet s) = some s := by
  decide

/-- Every character the encoder emits lies in the URL-safe alphabet. -/
lemma charOfSextet_mem (s : Nat) : charOfSextet s ∈ base64Alphabet := by
  by_cases h : s < 64
  · have : ∀ t, t < 64 → charOfSextet t ∈ base64Alphabet := by decide
    exact this s h
  · unfold charOfSextet
    rw [List.getD_eq_default]
    · decide
    · have hlen : base64Alphabet.length = 64 := by decide
      omega

/-- The encoder never emits `%` or `,`. -/
lemma charOfSextet_ne (s : Nat) : charOfSextet s ≠ '%' ∧ charOfSextet s ≠ ',' := by
  have hm := charOfSextet_mem s
  constructor
  · intro e
    rw [e] at hm
    exact absurd hm (by decide)
  · intro e
    rw [e] at hm
    exact absurd hm (by decide)

/-- All sextets cut from bytes `< 256` are `< 64`. -/
lemma bytesToSextets_lt : ∀ (bs : List Nat), (∀ b ∈ bs, b < 256) →
    ∀ s ∈ bytesToSextets bs, s < 64
  | [], _ => by simp [bytesToSextets]
  | [b0], h => by
    have h0 := h b0 (by simp)
    intro s hs
    simp only [bytesToSextets, List.mem_cons, List.not_mem_nil, or_false] at hs
    rcases hs with rfl | rfl <;> omega
  | [b0, b1], h => by
    have h0 := h b0 (by simp)
    have h1 := h b1 (by simp)
    intro s hs
    simp only [bytesToSextets, List.mem_cons, List.not_mem_nil, or_false] at hs
    rcases hs with rfl | rfl | rfl <;> omega
  | b0 :: b1 :: b2 :: rest, h => by
    have h0 := h b0 (List.mem_cons_self b0 _)
    have h1 := h b1 (List.mem_cons_of_mem _ (List.mem_cons_self b1 _))
    have h2 := h b2 (List.mem_cons_of_mem _ (List.mem_cons_of_mem _ (List.mem_cons_self b2 _)))
    have ih := bytesToSextets_lt rest (fun b hb => h b
      (List.mem_cons_of_mem _ (List.mem_cons_of_mem _ (List.mem_cons_of_mem _ hb))))
    intro s hs
    simp only [bytesToSextets, List.mem_cons] at hs
    rcases hs with rfl | rfl | rfl | rfl | hs
    · omega
    · omega
    · omega
    · omega
    · exact ih s hs

/-- Regrouping the sextets of a byte stream recovers the bytes. -/
lemma sextetsToBytes_bytesToSextets : ∀ (bs : List Nat), (∀ b ∈ bs, b < 256) →
    sextetsToBytes (bytesToSextets bs) = bs
  | [], _ => rfl
  | [b0], h => by
    have h0 := h b0 (by simp)
    simp only [bytesToSextets, sextetsToBytes, List.cons.injEq, and_true]
    omega
  | [b0, b1], h => by
    have h0 := h b0 (by simp)
    have h1 := h b1 (by simp)
    simp only [bytesToSextets, sextetsToBytes, List.cons.injEq, and_true]
    constructor <;> omega
  | b0 :: b1 :: b2 :: rest, h => by
    have h0 := h b0 (List.mem_cons_self b0 _)
    have h1 := h b1 (List.mem_cons_of_mem _ (List.mem_cons_self b1 _))
    have h2 := h b2 (List.mem_cons_of_mem _ (List.mem_cons_of_mem _ (List.mem_cons_self b2 _)))
    have ih := sextetsToBytes_bytesToSextets rest (fun b hb => h b
      (List.mem_cons_of_mem _ (List.mem_cons_of_mem _ (List.mem_cons_of_mem _ hb))))
    simp only [bytesToSextets, sextetsToBytes, ih, List.cons.injEq]
    refine ⟨by omega, by omega, by omega, trivial⟩

/-- Re-reading the encoder's characters as sextets is lossless. -/
lemma filterMap_sextet (l : List Nat) (h : ∀ s ∈ l, s < 64) :
    (l.map charOfSextet).filterMap sextetOfChar = l := by
  induction l with
  | nil => rfl
  | cons s rest ih =>
    have hs := h s (List.mem_cons_self s rest)
    rw [List.map_cons, List.filterMap_cons, sextetOfChar_charOfSextet s hs,
      ih (fun x hx => h x (List.mem_cons_of_mem s hx))]

/-- base64url decode ∘ encode is the identity on byte streams. -/
lemma base64url_roundtrip (bytes : List Nat) (h : ∀ b ∈ bytes, b < 256) :
    base64urlDecode (base64urlEncode bytes) = bytes := by
  unfold base64urlDecode base64urlEncode
  rw [filterMap_sextet _ (bytesToSextets_lt bytes h)]
  exact sextetsToBytes_bytesToSextets bytes h

/-- The encoder's output contains no `%`. -/
lemma base64urlEncode_no_percent (bytes : List Nat) : '%' ∉ base64urlEncode bytes := by
  intro hm
  unfold base64urlEncode at hm
  rcases List.mem_map.mp hm with ⟨s, _, hs⟩
  exact (charOfSextet_ne s).1 hs

/-! ## Helper lemmas: header assembly -/

/-- One block either throws the redirect error or succeeds. -/
lemma appendHeaderBlock_cases (redirect : Redirect) :
    ∀ (block : List (String × String)) (acc : List (String × String)),
      appendHeaderBlock redirect acc block = Except.error "redirects are not allowed"
      ∨ ∃ acc', appendHeaderBlock redirect acc block = Except.ok acc'
  | [], acc => Or.inr ⟨acc, rfl⟩
  | (k, v) :: tl, acc => by
    unfold appendHeaderBlock
    by_cases h1 : k = "location" ∨ (k = "Location" ∧ redirect = Redirect.error)
    · rw [if_pos h1]
      exact Or.inl rfl
    · rw [if_neg h1]
      by_cases h2 : k ≠ "result"
      · rw [if_pos h2]
        exact appendHeaderBlock_cases redirect tl (acc ++ [(k, v)])
      · rw [if_neg h2]
        exact appendHeaderBlock_cases redirect tl acc

/-- A block containing a key matching the source's redirect condition makes
the block throw. -/
lemma appendHeaderBlock_error (redirect : Redirect) (kv : String × String)
    (hk : kv.1 = "location" ∨ (kv.1 = "Location" ∧ redirect = Redirect.error)) :
    ∀ (block : List (String × String)) (acc : List (String × String)),
      kv ∈ block →
      appendHeaderBlock redirect acc block = Except.error "redirects are not allowed"
  | [], _, hkv => absurd hkv (List.not_mem_nil kv)
  | (k, v) :: tl, acc, hkv => by
    unfold appendHeaderBlock
    by_cases h1 : k = "location" ∨ (k = "Location" ∧ redirect = Redirect.error)
    · rw [if_pos h1]
    · rw [if_neg h1]
      rcases List.mem_cons.mp hkv with heq | htl
      · rw [heq] at hk
        exact absurd hk h1
      · by_cases h2 : k ≠ "result"
        · rw [if_pos h2]
          exact appendHeaderBlock_error redirect kv hk tl (acc ++ [(k, v)]) htl
        · rw [if_neg h2]
          exact appendHeaderBlock_error redirect kv hk tl acc htl

/-- If any block holds a matching key, the whole fold over the blocks throws,
from any accumulator. -/
lemma foldlM_blocks_error (redirect : Redirect) (kv : String × String)
    (hk : kv.1 = "location" ∨ (kv.1 = "Location" ∧ redirect = Redirect.error)) :
    ∀ (blocks : List (List (String × String))) (block : List (String × String)),
      block ∈ blocks → kv ∈ block →
      ∀ init, List.foldlM (appendHeaderBlock redirect) init blocks =
        Except.error "redirects are not allowed"
  | [], block, hb, _, _ => absurd hb (List.not_mem_nil block)
  | b :: bs, block, hb, hkv, init => by
    rw [List.foldlM_cons]
    rcases List.mem_cons.mp hb with heq | hbs
    · subst heq
      rw [appendHeaderBlock_error redirect kv hk block init hkv]
      rfl
    · rcases appendHeaderBlock_cases redirect b init with he | ⟨acc', hok⟩
      · rw [he]
        rfl
      · rw [hok]
        show List.foldlM (appendHeaderBlock redirect) acc' bs = _
        exact foldlM_blocks_error redirect kv hk bs block hbs hkv acc'

/-- Header assembly throws whenever the redirect condition fires in any block. -/
lemma assembleResponseHeaders_error (redirect : Redirect)
    (blocks : List (List (String × String))) (block : List (String × String))
    (kv : String × String) (hb : block ∈ blocks) (hkv : kv ∈ block)
    (hk : kv.1 = "location" ∨ (kv.1 = "Location" ∧ redirect = Redirect.error)) :
    assembleResponseHeaders redirect blocks = Except.error "redirects are not allowed" :=
  foldlM_blocks_error redirect kv hk blocks block hb hkv []

/-! ## Helper lemmas: progress callback -/

/-- Once the handle slot is filled it is never overwritten. -/
lemma runProgress_slot_some (h : Nat) :
    ∀ ticks, (runProgress (some h) ticks).1 = some h
  | [] => rfl
  | t :: ts => by
    show (runProgress (some h) ts).1 = some h
    exact runProgress_slot_some h ts

/-- Starting empty, the slot ends up holding the first handle seen (if any). -/
lemma runProgress_slot_first :
    ∀ ticks, (runProgress none ticks).1 = ticks.head?.map ProgressTick.handle
  | [] => rfl
  | t :: ts => by
    show (runProgress (some t.handle) ts).1 = some t.handle
    exact runProgress_slot_some t.handle ts

/-- Each invocation returns 1 exactly when the signal is aborted at that tick,
independent of the slot state and of whether `onabort` has fired. -/
lemma runProgress_returns :
    ∀ (s : Option Nat) (ticks),
      (runProgress s ticks).2 = ticks.map (fun t => if t.aborted then 1 else 0)
  | _, [] => rfl
  | s, t :: ts => by
    show (if t.aborted then 1 else 0) :: (runProgress _ ts).2 = _
    rw [List.map_cons, runProgress_returns _ ts]

/-! ## Helper lemmas: URL accessors on `data:` URLs -/

/-- The protocol of a `data:`-prefixed URL is `data:`. -/
lemma urlProtocol_data (rest : List Char) :
    urlProtocol (String.mk ("data:".data ++ rest)) = "data:".data := rfl

/-- The pathname of a `data:`-prefixed URL is everything after the colon. -/
lemma urlPathname_data (rest : List Char) :
    urlPathname (String.mk ("data:".data ++ rest)) = rest := rfl

/-! ## Concrete fixtures used by evaluation and witness theorems -/

/-- A plain GET request template. -/
def baseReq : PRequest :=
  { url := "http://example.com/", method := "GET", headers := [], body := none,
    redirect := Redirect.follow, signal := ⟨false⟩, headersSerializer := none }

/-- An engine answer that the data/file paths never consult. -/
def engUnused : CurlyResult := { statusCode := 0, headers := [], data := 0 }

/-! ## Claim theorems -/

/-- C1 (code evaluation at the failing input): with redirect mode `follow`, a
transport-returned lowercase `location` key makes the dispatch fail with
`'redirects are not allowed'` instead of appending the pair — the source's
condition `key === 'location' || (key === 'Location' && redirect === 'error')`
fires on lowercase `location` in every mode — while an uppercase `Location`
key in `follow` mode is appended exactly as the claim describes. -/
theorem follow_location_throws :
    (fetchPonyfill baseReq
        { statusCode := 301,
          headers := [[("location", "http://example.com/next")]], data := 0 }).outcome
      = DispatchOutcome.failure "redirects are not allowed"
    ∧ assembleResponseHeaders Redirect.follow [[("Location", "u"), ("x-a", "1")]]
      = Except.ok [("Location", "u"), ("x-a", "1")] :=
  ⟨rfl, rfl⟩

/-- C2 (code evaluation at the failing input `data:,hello`): the declared type
descriptor is empty and the dispatched response carries `content-type` equal
to the empty string, not `text/plain` — the source's destructuring default
`[mimeType = 'text/plain', ...]` can never apply because `split` never yields
`undefined`. -/
theorem dataUri_empty_descriptor :
    (fetchPonyfill { baseReq with url := "data:,hello" } engUnused).outcome
      = DispatchOutcome.response
          { status := 200, statusText := "OK", headers := [("content-type", "")],
            url := "", body := PBody.text "hello".data }
    ∧ ("" : String) ≠ "text/plain" :=
  ⟨rfl, by decide⟩

/-- C4: the handler installed on the body stream suppresses an error exactly
when it is a transport-engine error (`isCurlError`) whose code is
`CURLE_ABORTED_BY_CALLBACK`, and re-raises every other error unchanged. -/
theorem bodyError_suppression (e : StreamError) :
    (e.isCurlError = true ∧ e.code = CURLE_ABORTED_BY_CALLBACK →
      bodyErrorHandler e = none)
    ∧ (¬(e.isCurlError = true ∧ e.code = CURLE_ABORTED_BY_CALLBACK) →
      bodyErrorHandler e = some e) := by
  refine ⟨fun h => ?_, fun h => ?_⟩
  · unfold bodyErrorHandler
    rw [if_pos h]
  · unfold bodyErrorHandler
    rw [if_neg h]

/-- Witness for C4 at concrete errors: the abort-by-callback curl error is
suppressed; the same code without the curl marker, and a curl error with a
different code, are re-raised unchanged. -/
theorem bodyError_suppression_witness :
    bodyErrorHandler ⟨true, 42⟩ = none
    ∧ bodyErrorHandler ⟨false, 42⟩ = some ⟨false, 42⟩
    ∧ bodyErrorHandler ⟨true, 7⟩ = some ⟨true, 7⟩ :=
  ⟨(bodyError_suppression ⟨true, 42⟩).1 ⟨rfl, rfl⟩,
   (bodyError_suppression ⟨false, 42⟩).2 (by decide),
   (bodyError_suppression ⟨true, 7⟩).2 (by decide)⟩

/-- C5: whenever the header serializer reports a `content-length` value `v`,
the options snapshot contains `inFileSize = Number(v)`; when nothing is
reported, the snapshot has no `inFileSize`; and on the network path the
snapshot passed to the engine is exactly `buildCurlyOptions` of the request's
serializer (defaulting to `defaultHeadersSerializer`). -/
theorem inFileSize_reported (req : PRequest)
    (ser : List (String × String) → List String × Option String)
    (v : String) (res : CurlyResult) :
    ((ser req.headers).2 = some v →
      (buildCurlyOptions req ser).inFileSize = some (jsNumber v))
    ∧ ((ser req.headers).2 = none →
      (buildCurlyOptions req ser).inFileSize = none)
    ∧ (urlProtocol req.url ≠ "data:".data → urlProtocol req.url ≠ "file:".data →
      (fetchPonyfill req res).curlyOptions =
        some (buildCurlyOptions req (req.headersSerializer.getD defaultHeadersSerializer))) := by
  refine ⟨fun h => ?_, fun h => ?_, fun h1 h2 => ?_⟩
  · simp [buildCurlyOptions, h]
  · simp [buildCurlyOptions, h]
  · unfold fetchPonyfill
    rw [if_neg h1, if_neg h2]

/-- Witness for C5: `content-length: 1234` yields `inFileSize = 1234`; absent
`content-length` yields no `inFileSize`; and the network path passes that
snapshot through. -/
theorem inFileSize_reported_witness :
    (buildCurlyOptions { baseReq with headers := [("a", "b"), ("content-length", "1234")] }
        defaultHeadersSerializer).inFileSize = some (JSNum.num 1234)
    ∧ (buildCurlyOptions { baseReq with headers := [("a", "b")] }
        defaultHeadersSerializer).inFileSize = none
    ∧ (fetchPonyfill baseReq engUnused).curlyOptions =
        some (buildCurlyOptions baseReq defaultHeadersSerializer) :=
  ⟨(inFileSize_reported { baseReq with headers := [("a", "b"), ("content-length", "1234")] }
      defaultHeadersSerializer "1234" engUnused).1 rfl,
   (inFileSize_reported { baseReq with headers := [("a", "b")] }
      defaultHeadersSerializer "" engUnused).2.1 rfl,
   (inFileSize_reported baseReq defaultHeadersSerializer "" engUnused).2.2
      (by decide) (by decide)⟩

/-- C6: across any sequence of progress-callback invocations, a filled handle
slot is never overwritten; starting empty it ends holding the first handle
seen (if any); and every invocation returns 1 exactly when the signal is
aborted at that tick — independent of the slot state and of whether the
one-shot `onabort` callback has fired (the returned list depends only on the
per-tick `aborted` flags). -/
theorem progress_callback_invariants (ticks : List ProgressTick) (h : Nat)
    (s : Option Nat) :
    (runProgress (some h) ticks).1 = some h
    ∧ (runProgress none ticks).1 = ticks.head?.map ProgressTick.handle
    ∧ (runProgress s ticks).2 = ticks.map (fun t => if t.aborted then 1 else 0) :=
  ⟨runProgress_slot_some h ticks, runProgress_slot_first ticks,
   runProgress_returns s ticks⟩

/-- C9: whenever header assembly succeeds, the network path constructs the
Response with status = the engine's status code, headers = the assembled
mapping, url = the original request URL, and body = the engine's live stream
passed through unmodified. -/
theorem network_response_construction (req : PRequest) (res : CurlyResult)
    (hdrs : List (String × String))
    (h : assembleResponseHeaders req.redirect res.headers = Except.ok hdrs) :
    processCurlyResult req res =
      Except.ok { status := res.statusCode, statusText := "", headers := hdrs,
                  url := req.url, body := PBody.curlStream res.data } := by
  unfold processCurlyResult
  rw [h]

/-- Witness for C9 at a concrete engine answer (one block with a `result`
status-line key and one ordinary header). -/
theorem network_response_construction_witness :
    processCurlyResult baseReq
        { statusCode := 200,
          headers := [[("result", "HTTP/1.1 200 OK"), ("x-a", "1")]], data := 7 } =
      Except.ok { status := 200, statusText := "", headers := [("x-a", "1")],
                  url := "http://example.com/", body := PBody.curlStream 7 } :=
  network_response_construction baseReq
    { statusCode := 200,
      headers := [[("result", "HTTP/1.1 200 OK"), ("x-a", "1")]], data := 7 }
    [("x-a", "1")] rfl

/-- C3: with redirect mode `error`, a transport-returned header block
containing a `location` or `Location` key makes header assembly throw, so the
dispatch fails with `'redirects are not allowed'`, no Response value is ever
constructed for that call, and on the network path the dispatch outcome is
that failure. -/
theorem redirect_error_rejects (req : PRequest) (res : CurlyResult)
    (block : List (String × String)) (kv : String × String)
    (hmode : req.redirect = Redirect.error)
    (hb : block ∈ res.headers) (hkv : kv ∈ block)
    (hk : kv.1 = "location" ∨ kv.1 = "Location") :
    processCurlyResult req res = Except.error "redirects are not allowed"
    ∧ (∀ r : PResponse, processCurlyResult req res ≠ Except.ok r)
    ∧ (urlProtocol req.url ≠ "data:".data → urlProtocol req.url ≠ "file:".data →
        (fetchPonyfill req res).outcome
          = DispatchOutcome.failure "redirects are not allowed") := by
  have hk' : kv.1 = "location" ∨ (kv.1 = "Location" ∧ req.redirect = Redirect.error) := by
    rcases hk with h | h
    · exact Or.inl h
    · exact Or.inr ⟨h, hmode⟩
  have herr := assembleResponseHeaders_error req.redirect res.headers block kv hb hkv hk'
  have hp : processCurlyResult req res = Except.error "redirects are not allowed" := by
    unfold processCurlyResult
    rw [herr]
  refine ⟨hp, fun r hr => ?_, fun h1 h2 => ?_⟩
  · rw [hp] at hr
    simp at hr
  · unfold fetchPonyfill
    rw [if_neg h1, if_neg h2]
    show (match processCurlyResult req res with
          | Except.ok r => DispatchOutcome.response r
          | Except.error e => DispatchOutcome.failure e)
        = DispatchOutcome.failure "redirects are not allowed"
    rw [hp]

/-- Witness for C3 at a concrete request (redirect mode `error`) and engine
answer containing a `Location` header block. -/
theorem redirect_error_rejects_witness :
    processCurlyResult { baseReq with redirect := Redirect.error }
        { statusCode := 302, headers := [[("Location", "http://next/")]], data := 5 }
      = Except.error "redirects are not allowed"
    ∧ (fetchPonyfill { baseReq with redirect := Redirect.error }
        { statusCode := 302, headers := [[("Location", "http://next/")]], data := 5 }).outcome
      = DispatchOutcome.failure "redirects are not allowed" :=
  ⟨(redirect_error_rejects { baseReq with redirect := Redirect.error }
      { statusCode := 302, headers := [[("Location", "http://next/")]], data := 5 }
      [("Location", "http://next/")] ("Location", "http://next/")
      rfl (by decide) (by decide) (Or.inr rfl)).1,
   (redirect_error_rejects { baseReq with redirect := Redirect.error }
      { statusCode := 302, headers := [[("Location", "http://next/")]], data := 5 }
      [("Location", "http://next/")] ("Location", "http://next/")
      rfl (by decide) (by decide) (Or.inr rfl)).2.2 (by decide) (by decide)⟩

/-- C7 (amended): scheme dispatch picks the transport by protocol — `data:`
goes to the Data-URI handler (yielding that handler's Response whenever the
payload percent-decodes) and `file:` to the File handler, in both cases
without invoking the transport engine or registering an abort callback; every
other scheme goes to the network handler, which does both. -/
theorem scheme_dispatch (req : PRequest) (res : CurlyResult) :
    (urlProtocol req.url = "data:".data →
      (fetchPonyfill req res).engineInvoked = false
      ∧ (fetchPonyfill req res).onabortRegistered = false
      ∧ ∀ r, getResponseForDataUri (urlPathname req.url) = some r →
          (fetchPonyfill req res).outcome = DispatchOutcome.response r)
    ∧ (urlProtocol req.url = "file:".data →
      (fetchPonyfill req res).engineInvoked = false
      ∧ (fetchPonyfill req res).onabortRegistered = false
      ∧ (fetchPonyfill req res).outcome
          = DispatchOutcome.response (getResponseForFile req.url))
    ∧ (urlProtocol req.url ≠ "data:".data → urlProtocol req.url ≠ "file:".data →
      (fetchPonyfill req res).engineInvoked = true
      ∧ (fetchPonyfill req res).onabortRegistered = true) := by
  refine ⟨fun h => ?_, fun h => ?_, fun h1 h2 => ?_⟩
  · unfold fetchPonyfill
    rw [if_pos h]
    refine ⟨rfl, rfl, fun r hr => ?_⟩
    show (match getResponseForDataUri (urlPathname req.url) with
          | some r => DispatchOutcome.response r
          | none => DispatchOutcome.failure "URIError: URI malformed")
        = DispatchOutcome.response r
    rw [hr]
  · have hne : urlProtocol req.url ≠ "data:".data := by
      rw [h]
      decide
    unfold fetchPonyfill
    rw [if_neg hne, if_pos h]
    exact ⟨rfl, rfl, rfl⟩
  · unfold fetchPonyfill
    rw [if_neg h1, if_neg h2]
    exact ⟨rfl, rfl⟩

/-- Counterexample for C7 as stated: the request for `data:,%` has scheme
`data:` but dispatch produces no Response at all — the Data-URI handler
rejects (malformed percent escape) — though the engine is indeed never
invoked. -/
theorem dataUri_malformed_counterexample :
    (fetchPonyfill { baseReq with url := "data:,%" } engUnused).outcome
      = DispatchOutcome.failure "URIError: URI malformed"
    ∧ (fetchPonyfill { baseReq with url := "data:,%" } engUnused).engineInvoked = false :=
  ⟨rfl, rfl⟩

/-- Witness for C7 at concrete URLs of all three scheme classes. -/
theorem scheme_dispatch_witness :
    (fetchPonyfill { baseReq with url := "data:text/plain,hi" } engUnused).outcome
      = DispatchOutcome.response
          { status := 200, statusText := "OK",
            headers := [("content-type", "text/plain")], url := "",
            body := PBody.text "hi".data }
    ∧ (fetchPonyfill { baseReq with url := "file:///tmp/x" } engUnused).outcome
      = DispatchOutcome.response (getResponseForFile "file:///tmp/x")
    ∧ (fetchPonyfill baseReq engUnused).engineInvoked = true :=
  ⟨((scheme_dispatch { baseReq with url := "data:text/plain,hi" } engUnused).1
      (by decide)).2.2 _ rfl,
   ((scheme_dispatch { baseReq with url := "file:///tmp/x" } engUnused).2.1
      (by decide)).2.2,
   ((scheme_dispatch baseReq engUnused).2.2 (by decide) (by decide)).1⟩

/-- C10: for `data:`/`file:` schemes the whole dispatch output is a function
of the URL alone — two requests with equal URLs produce identical outputs
whatever their method, headers, body, redirect mode, signal, or engine
answer — and no `onabort` callback is registered on the signal. -/
theorem url_determines_data_file (r1 r2 : PRequest) (e1 e2 : CurlyResult)
    (hurl : r1.url = r2.url)
    (hscheme : urlProtocol r1.url = "data:".data ∨ urlProtocol r1.url = "file:".data) :
    fetchPonyfill r1 e1 = fetchPonyfill r2 e2
    ∧ (fetchPonyfill r1 e1).onabortRegistered = false := by
  rcases hscheme with h | h
  · have h2 : urlProtocol r2.url = "data:".data := hurl ▸ h
    constructor
    · simp [fetchPonyfill, hurl, h2]
    · unfold fetchPonyfill
      rw [if_pos h]
  · have h2 : urlProtocol r2.url = "file:".data := hurl ▸ h
    have hne1 : urlProtocol r1.url ≠ "data:".data := by
      rw [h]
      decide
    constructor
    · simp [fetchPonyfill, hurl, h2]
    · unfold fetchPonyfill
      rw [if_neg hne1, if_pos h]

/-- Witness for C10: two requests for the same data URI differing in method,
headers, body, redirect mode and signal state produce identical outputs. -/
theorem url_determines_data_file_witness :
    fetchPonyfill { baseReq with url := "data:text/plain,same" } engUnused
      = fetchPonyfill
          { url := "data:text/plain,same", method := "POST",
            headers := [("x", "y")], body := some 9, redirect := Redirect.error,
            signal := ⟨true⟩, headersSerializer := none }
          { statusCode := 500, headers := [[("a", "b")]], data := 1 }
    ∧ (fetchPonyfill { baseReq with url := "data:text/plain,same" }
        engUnused).onabortRegistered = false :=
  url_determines_data_file _ _ _ _ rfl (Or.inl (by decide))

/-- The Data-URI handler on a pathname `mt ++ ',' ++ p` with a comma-free
descriptor `mt` ending in `;base64` and a payload percent-decoding to `d`
yields the base64 blob response. -/
lemma getResponseForDataUri_base64 (mt p d : List Char)
    (hsuf : BASE64_SUFFIX.isSuffixOf mt = true) (hmt : ',' ∉ mt)
    (hdec : percentDecode p = some d) :
    getResponseForDataUri (mt ++ ',' :: p) =
      some { status := 200, statusText := "OK", headers := [], url := "",
             body := PBody.blob (base64urlDecode d)
               (mt.take (mt.length - BASE64_SUFFIX.length)) } := by
  simp only [getResponseForDataUri]
  rw [splitOnChar_append ',' mt p hmt]
  simp only [List.headD_cons, List.tail_cons]
  rw [joinChar_splitOnChar, hdec]
  simp [hsuf]

/-- C8: dispatching a well-formed data URI whose comma-free type descriptor
ends with the case-sensitive `;base64` marker resolves to a status-200
Response carrying a blob whose bytes are the URL-safe base64 decoding of the
percent-decoded payload, typed with the descriptor minus the marker; in
particular URL-safe-base64-encoding arbitrary bytes and dispatching
`data:;base64,<encoded>` reproduces exactly those bytes. -/
theorem dataUri_base64_roundtrip :
    (∀ (mt p d : List Char) (req : PRequest) (res : CurlyResult),
      req.url = String.mk ("data:".data ++ (mt ++ ',' :: p)) →
      BASE64_SUFFIX.isSuffixOf mt = true →
      ',' ∉ mt →
      percentDecode p = some d →
      (fetchPonyfill req res).outcome = DispatchOutcome.response
        { status := 200, statusText := "OK", headers := [], url := "",
          body := PBody.blob (base64urlDecode d)
            (mt.take (mt.length - BASE64_SUFFIX.length)) })
    ∧ (∀ (bytes : List Nat) (req : PRequest) (res : CurlyResult),
      (∀ b ∈ bytes, b < 256) →
      req.url = String.mk ("data:;base64,".data ++ base64urlEncode bytes) →
      (fetchPonyfill req res).outcome = DispatchOutcome.response
        { status := 200, statusText := "OK", headers := [], url := "",
          body := PBody.blob bytes [] }) := by
  have main : ∀ (mt p d : List Char) (req : PRequest) (res : CurlyResult),
      req.url = String.mk ("data:".data ++ (mt ++ ',' :: p)) →
      BASE64_SUFFIX.isSuffixOf mt = true →
      ',' ∉ mt →
      percentDecode p = some d →
      (fetchPonyfill req res).outcome = DispatchOutcome.response
        { status := 200, statusText := "OK", headers := [], url := "",
          body := PBody.blob (base64urlDecode d)
            (mt.take (mt.length - BASE64_SUFFIX.length)) } := by
    intro mt p d req res hurl hsuf hmt hdec
    unfold fetchPonyfill
    rw [hurl, urlProtocol_data, if_pos rfl]
    show (match getResponseForDataUri (urlPathname
            (String.mk ("data:".data ++ (mt ++ ',' :: p)))) with
          | some r => DispatchOutcome.response r
          | none => DispatchOutcome.failure "URIError: URI malformed")
        = _
    rw [urlPathname_data, getResponseForDataUri_base64 mt p d hsuf hmt hdec]
  refine ⟨main, fun bytes req res hb hurl => ?_⟩
  have hurl' : req.url =
      String.mk ("data:".data ++ (";base64".data ++ ',' :: base64urlEncode bytes)) := by
    rw [hurl]
    rfl
  have hdec := percentDecode_no_percent _ (base64urlEncode_no_percent bytes)
  have hres := main ";base64".data (base64urlEncode bytes) (base64urlEncode bytes)
    req res hurl' (by decide) (by decide) hdec
  rw [base64url_roundtrip bytes hb] at hres
  exact hres

/-- Witness for C8 at the concrete URI `data:;base64,aGk` (the base64url
encoding of the bytes of "hi"): both conjuncts applied at that input. -/
theorem dataUri_base64_roundtrip_witness :
    (fetchPonyfill { baseReq with url := "data:;base64,aGk" } engUnused).outcome
      = DispatchOutcome.response
          { status := 200, statusText := "OK", headers := [], url := "",
            body := PBody.blob (base64urlDecode "aGk".data)
              (";base64".data.take ((";base64".data).length - BASE64_SUFFIX.length)) }
    ∧ (fetchPonyfill { baseReq with url := "data:;base64,aGk" } engUnused).outcome
      = DispatchOutcome.response
          { status := 200, statusText := "OK", headers := [], url := "",
            body := PBody.blob [104, 105] [] } :=
  ⟨dataUri_base64_roundtrip.1 ";base64".data "aGk".data "aGk".data
      { baseReq with url := "data:;base64,aGk" } engUnused rfl (by decide) (by decide)
      (by decide),
   dataUri_base64_roundtrip.2 [104, 105]
      { baseReq with url := "data:;base64,aGk" } engUnused (by decide) rfl⟩
